import Mathlib

/-!
Verification development for the `trustless` reputation-registry program
(src/trustless/programs/trustless/src/lib.rs).

The program is shallowly embedded as a pure state machine.  Chain state is a
triple of keyed record stores (agents, jobs, feedbacks) plus an ordered event
log; each of the five instruction handlers is a function
`... → Chain → Except TxError Chain`, where an `error` result models the host
runtime aborting the whole transaction with no state change.

Modelling conventions:
* `Pubkey` is either an ordinary key (`wallet n`) or a program-derived address
  (`pda ns k`, the idealised injective `derive` of the spec).  Record stores
  are keyed directly by the PDA seed key, which is faithful because `derive`
  is injective per namespace.
* Anchor account-validation (performed by the generated `try_accounts` before
  the handler body, in declaration order) is modelled explicitly: `init`
  fails with `accountAlreadyInUse` when a record already exists at the
  derived address, a non-init `Account` fails with `accountNotInitialized`
  when absent, a `SystemAccount` fails with `accountNotSystemOwned` when the
  address holds a program-owned record (a stored agent record is program-owned,
  by `register_agent`'s `init` and by the lazy `create_account` owner argument,
  so in the model the check fails exactly when the record exists), and
  `constraint =` clauses fail with their declared error.
* `u128`/`u64` values are `Nat`.  Instruction data bytes are `Nat`s reduced
  mod 256 where the source reads them as `u8`.
* `f32` values are represented symbolically by `F32`: the program only ever
  stores the literal `0.0` or the narrowing of one `f64` division of the two
  running totals, so `F32.narrowDiv n d` stands for `(n as f64 / d as f64) as
  f32` and `F32.lit0` for `0.0`.
-/

namespace Trustless

/-- Public keys: ordinary keys and program-derived addresses. -/
inductive Pubkey where
  | wallet (n : Nat)
  | pda (ns : String) (key : Pubkey)
deriving DecidableEq, Repr

/-- The deterministic address-derivation function (spec 4.1), idealised as
injective (collision-resistance). -/
def derive (ns : String) (k : Pubkey) : Pubkey := Pubkey.pda ns k

/-- Symbolic 32-bit floats: the only float values the program ever stores. -/
inductive F32 where
  | lit0
  | narrowDiv (num den : Nat)
deriving DecidableEq, Repr

/-- The program's declared error enum (src lib.rs, `ErrorCode`). -/
inductive ErrorCode where
  | invalidRating
  | unauthorizedClient
  | unauthorizedAgent
  | invalidProofOfPayment
  | tokenMintMismatch
  | invalidClientTokenAccount
  | invalidAgentTokenAccount
  | invalidTransferInstruction
  | invalidTransferAmount
  | transferSourceMismatch
  | transferDestinationMismatch
  | transferAuthorityMismatch
deriving DecidableEq, Repr

/-- Errors a transaction can abort with: a program error from the enum above,
or a host/framework-level failure (account collisions on `init`, a missing
required account, a failed raw constraint, a failed sibling-instruction load,
or a checked-arithmetic abort). -/
inductive TxError where
  | program (e : ErrorCode)
  | accountAlreadyInUse
  | accountNotInitialized
  | accountNotSystemOwned
  | constraintViolation
  | instructionMissing
  | arithmeticOverflow
deriving DecidableEq, Repr

instance exceptDecEq {ε α : Type} [DecidableEq ε] [DecidableEq α] :
    DecidableEq (Except ε α) := fun x y =>
  match x, y with
  | .ok a, .ok b =>
    if h : a = b then isTrue (by rw [h]) else isFalse (fun hh => h (Except.ok.inj hh))
  | .error a, .error b =>
    if h : a = b then isTrue (by rw [h]) else isFalse (fun hh => h (Except.error.inj hh))
  | .ok _, .error _ => isFalse (fun hh => Except.noConfusion hh)
  | .error _, .ok _ => isFalse (fun hh => Except.noConfusion hh)

/-- `AgentAccount` (src lib.rs). -/
structure AgentAccount where
  wallet : Pubkey
  metadata_uri : String
  created_at : Int
  active : Bool
  auto_created : Bool
  total_weighted_rating : Nat
  total_weight : Nat
  avg_rating : F32
  last_update : Int
deriving DecidableEq, Repr

/-- `JobRecord` (src lib.rs). -/
structure JobRecord where
  job_id : Pubkey
  client_wallet : Pubkey
  agent_wallet : Pubkey
  payment_tx : Pubkey
  payment_amount : Nat
  created_at : Int
deriving DecidableEq, Repr

/-- `FeedbackRecord` (src lib.rs). -/
structure FeedbackRecord where
  feedback_id : Pubkey
  job_id : Pubkey
  client_wallet : Pubkey
  agent_wallet : Pubkey
  rating : Nat
  comment_uri : Option String
  proof_of_payment : Pubkey
  payment_amount : Nat
  timestamp : Int
deriving DecidableEq, Repr

/-- An SPL token account, reduced to the fields the program reads. -/
structure TokenAccount where
  address : Pubkey
  mint : Pubkey
  owner : Pubkey
deriving DecidableEq, Repr

/-- A sibling instruction of the enclosing transaction, reduced to the fields
the program reads: target program, account-meta pubkeys, raw data bytes. -/
structure Instruction where
  program_id : Pubkey
  accounts : List Pubkey
  data : List Nat
deriving DecidableEq, Repr

/-- Events emitted by the program (src lib.rs `#[event]` structs). -/
inductive Event where
  | agentRegistered (wallet : Pubkey) (metadata_uri : String)
  | agentAutoCreated (wallet : Pubkey)
  | agentUpdated (wallet : Pubkey) (metadata_uri : String)
  | agentDeactivated (wallet : Pubkey)
  | jobRegistered (job_id agent_wallet client_wallet : Pubkey) (payment_amount : Nat)
  | feedbackSubmitted (job_id client_wallet agent_wallet : Pubkey) (rating payment_amount : Nat)
  | reputationUpdated (agent_wallet : Pubkey) (new_avg_rating : F32)
deriving DecidableEq, Repr

/-- First-match association lookup. -/
def assocGet {α : Type} : List (Pubkey × α) → Pubkey → Option α
  | [], _ => none
  | e :: rest, k => if e.1 = k then some e.2 else assocGet rest k

/-- A keyed record store. -/
structure Store (α : Type) where
  entries : List (Pubkey × α)
deriving DecidableEq, Repr

def Store.get? {α : Type} (m : Store α) (k : Pubkey) : Option α :=
  assocGet m.entries k

def Store.put {α : Type} (m : Store α) (k : Pubkey) (v : α) : Store α :=
  ⟨(k, v) :: m.entries⟩

/-- Chain state: the three record stores (keyed by the PDA seed key:
agents by wallet, jobs by payment reference, feedbacks by job id) and the
ordered log of emitted events. -/
structure Chain where
  agents : Store AgentAccount
  jobs : Store JobRecord
  feedbacks : Store FeedbackRecord
  events : List Event
deriving DecidableEq, Repr

/-- Little-endian unsigned integer of a list of bytes (`u64::from_le_bytes`
when the list has 8 entries); each entry is reduced mod 256 as a `u8`. -/
def leU64 (bs : List Nat) : Nat :=
  bs.foldr (fun b acc => b % 256 + 256 * acc) 0

/-- Modelled from the spec: the workspace build manifest (which fixes Rust's
integer-overflow behaviour and is not under src/) is missing; per the spec's
abort-on-failure execution model (section 5, with overflow policy left open in
sections 7 and 9), an overflowing `u128` addition aborts the transaction. -/
def checkedAddU128 (a b : Nat) : Except TxError Nat :=
  if a + b < 2 ^ 128 then .ok (a + b) else .error .arithmeticOverflow

/-- Modelled from the spec: `u128` multiplication under the same
abort-on-overflow policy as `checkedAddU128`. -/
def checkedMulU128 (a b : Nat) : Except TxError Nat :=
  if a * b < 2 ^ 128 then .ok (a * b) else .error .arithmeticOverflow

/-- `register_agent` (src lib.rs lines 12-32; `RegisterAgent` accounts:
`init` at seeds ["agent", signer]). -/
def registerAgent (signer : Pubkey) (metadata_uri : String) (now : Int)
    (s : Chain) : Except TxError Chain :=
  if (s.agents.get? signer).isSome then .error .accountAlreadyInUse
  else
    .ok { s with
          agents := s.agents.put signer
            { wallet := signer, metadata_uri := metadata_uri, created_at := now,
              active := true, auto_created := false, total_weighted_rating := 0,
              total_weight := 0, avg_rating := F32.lit0, last_update := now },
          events := s.events ++ [Event.agentRegistered signer metadata_uri] }

/-- `update_agent` (src lib.rs lines 35-46; `UpdateAgent` accounts: record at
seeds ["agent", signer] with `has_one = wallet` and the raw constraint
`wallet.key() == signer.key()`). -/
def updateAgent (signer wallet_acc : Pubkey) (metadata_uri : String) (now : Int)
    (s : Chain) : Except TxError Chain :=
  match s.agents.get? signer with
  | none => .error .accountNotInitialized
  | some aa =>
    if aa.wallet ≠ wallet_acc then .error (.program .unauthorizedAgent)
    else if wallet_acc ≠ signer then .error .constraintViolation
    else
      .ok { s with
            agents := s.agents.put signer
              { aa with metadata_uri := metadata_uri, last_update := now },
            events := s.events ++ [Event.agentUpdated aa.wallet metadata_uri] }

/-- `deactivate_agent` (src lib.rs lines 49-59; `DeactivateAgent` accounts
mirror `UpdateAgent`). -/
def deactivateAgent (signer wallet_acc : Pubkey) (now : Int)
    (s : Chain) : Except TxError Chain :=
  match s.agents.get? signer with
  | none => .error .accountNotInitialized
  | some aa =>
    if aa.wallet ≠ wallet_acc then .error (.program .unauthorizedAgent)
    else if wallet_acc ≠ signer then .error .constraintViolation
    else
      .ok { s with
            agents := s.agents.put signer { aa with active := false, last_update := now },
            events := s.events ++ [Event.agentDeactivated aa.wallet] }

/-- The sibling-instruction verification of `register_job`
(src lib.rs lines 101-137). -/
def verifyTransfer (ix : Instruction) (tokenProgram clientTok agentTok clientWallet : Pubkey) :
    Except TxError Nat :=
  if ix.program_id ≠ tokenProgram then .error (.program .invalidTransferInstruction)
  else if ¬ (9 ≤ ix.data.length ∧ ix.data[0]? = some 3) then
    .error (.program .invalidTransferInstruction)
  else
    let amount_bytes := (ix.data.drop 1).take 8
    if amount_bytes.length ≠ 8 then .error (.program .invalidTransferAmount)
    else
      let payment_amount := leU64 amount_bytes
      if ix.accounts.length < 3 then .error (.program .invalidTransferInstruction)
      else if ix.accounts[0]? ≠ some clientTok then .error (.program .transferSourceMismatch)
      else if ix.accounts[1]? ≠ some agentTok then .error (.program .transferDestinationMismatch)
      else if ix.accounts[2]? ≠ some clientWallet then .error (.program .transferAuthorityMismatch)
      else .ok payment_amount

/-- The accounts handed to `register_job` (the `RegisterJob` context), plus
the enclosing transaction's instruction list read through the instruction
sysvar. -/
structure RegisterJobCtx where
  agent_wallet : Pubkey
  client_wallet : Pubkey
  payment_tx : Pubkey
  client_token_account : TokenAccount
  agent_token_account : TokenAccount
  token_program : Pubkey
  ixs : List Instruction
deriving DecidableEq, Repr

/-- The agent record written by lazy agent creation
(src lib.rs lines 162-172). -/
def autoCreatedAgent (wallet : Pubkey) (now : Int) : AgentAccount :=
  { wallet := wallet, metadata_uri := "", created_at := now, active := true,
    auto_created := true, total_weighted_rating := 0, total_weight := 0,
    avg_rating := F32.lit0, last_update := now }

/-- The job record written by `register_job` (src lib.rs lines 184-189). -/
def jobEntry (c : RegisterJobCtx) (amt : Nat) (now : Int) : JobRecord :=
  { job_id := derive "job" c.payment_tx, client_wallet := c.client_wallet,
    agent_wallet := c.agent_wallet, payment_tx := c.payment_tx,
    payment_amount := amt, created_at := now }

/-- `register_job` (src lib.rs lines 64-199 with the `RegisterJob` account
constraints).  Validation order (try_accounts, declaration order): the
`SystemAccount` owner check on `agent_account` — which fails whenever a
program-owned agent record already exists at the derived address — then the
`init` collision on the job record and the two token-owner constraints; then
the handler: mint check, owner re-checks, sibling-instruction load and
verification, lazy agent creation (whose `data_is_empty` else-branch is
consequently dead code, kept here for fidelity), job-record write. -/
def registerJob (c : RegisterJobCtx) (transfer_instruction_index : Nat) (now : Int)
    (s : Chain) : Except TxError Chain :=
  if (s.agents.get? c.agent_wallet).isSome then .error .accountNotSystemOwned
  else if (s.jobs.get? c.payment_tx).isSome then .error .accountAlreadyInUse
  else if c.client_token_account.owner ≠ c.client_wallet then
    .error (.program .invalidClientTokenAccount)
  else if c.agent_token_account.owner ≠ c.agent_wallet then
    .error (.program .invalidAgentTokenAccount)
  else if c.client_token_account.mint ≠ c.agent_token_account.mint then
    .error (.program .tokenMintMismatch)
  else if c.client_token_account.owner ≠ c.client_wallet then
    .error (.program .invalidClientTokenAccount)
  else if c.agent_token_account.owner ≠ c.agent_wallet then
    .error (.program .invalidAgentTokenAccount)
  else
    match c.ixs[transfer_instruction_index]? with
    | none => .error .instructionMissing
    | some transfer_ix =>
      match verifyTransfer transfer_ix c.token_program c.client_token_account.address
          c.agent_token_account.address c.client_wallet with
      | .error e => .error e
      | .ok payment_amount =>
        .ok { agents :=
                if (s.agents.get? c.agent_wallet).isNone then
                  s.agents.put c.agent_wallet (autoCreatedAgent c.agent_wallet now)
                else s.agents,
              jobs := s.jobs.put c.payment_tx (jobEntry c payment_amount now),
              feedbacks := s.feedbacks,
              events := s.events
                ++ (if (s.agents.get? c.agent_wallet).isNone then
                      [Event.agentAutoCreated c.agent_wallet]
                    else [])
                ++ [Event.jobRegistered (derive "job" c.payment_tx) c.agent_wallet
                      c.client_wallet payment_amount] }

/-- The feedback record written by `submit_feedback`
(src lib.rs lines 230-238). -/
def feedbackEntry (jr : JobRecord) (cl : Pubkey) (r : Nat) (cm : Option String)
    (now : Int) : FeedbackRecord :=
  { feedback_id := derive "feedback" jr.job_id, job_id := jr.job_id,
    client_wallet := cl, agent_wallet := jr.agent_wallet, rating := r,
    comment_uri := cm, proof_of_payment := jr.payment_tx, payment_amount := jr.payment_amount,
    timestamp := now }

/-- The agent record after one aggregate update (src lib.rs lines 244-248). -/
def updatedAgent (aa : AgentAccount) (twr tw : Nat) (now : Int) : AgentAccount :=
  { aa with
    total_weighted_rating := twr
    total_weight := tw
    avg_rating := F32.narrowDiv twr tw
    last_update := now }

/-- `submit_feedback` (src lib.rs lines 202-264 with the `SubmitFeedback`
account constraints).  Validation order: job record must exist at seeds
["job", proof_of_payment], agent record must exist at seeds
["agent", job.agent_wallet], `init` collision on the feedback record at seeds
["feedback", job.job_id] (all try_accounts), then the handler: rating range,
client match, proof-of-payment match, aggregate update. -/
def submitFeedback (client_wallet proof_of_payment : Pubkey) (rating : Nat)
    (comment_uri : Option String) (now : Int) (s : Chain) : Except TxError Chain :=
  match s.jobs.get? proof_of_payment with
  | none => .error .accountNotInitialized
  | some job_record =>
    match s.agents.get? job_record.agent_wallet with
    | none => .error .accountNotInitialized
    | some agent_account =>
      if (s.feedbacks.get? job_record.job_id).isSome then .error .accountAlreadyInUse
      else if ¬ (1 ≤ rating ∧ rating ≤ 5) then .error (.program .invalidRating)
      else if job_record.client_wallet ≠ client_wallet then
        .error (.program .unauthorizedClient)
      else if job_record.payment_tx ≠ proof_of_payment then
        .error (.program .invalidProofOfPayment)
      else
        match checkedMulU128 rating job_record.payment_amount with
        | .error e => .error e
        | .ok weighted =>
          match checkedAddU128 agent_account.total_weighted_rating weighted with
          | .error e => .error e
          | .ok twr =>
            match checkedAddU128 agent_account.total_weight job_record.payment_amount with
            | .error e => .error e
            | .ok tw =>
              .ok { agents := s.agents.put job_record.agent_wallet
                      (updatedAgent agent_account twr tw now),
                    jobs := s.jobs,
                    feedbacks := s.feedbacks.put job_record.job_id
                      (feedbackEntry job_record client_wallet rating comment_uri now),
                    events := s.events ++
                      [Event.feedbackSubmitted job_record.job_id client_wallet
                         job_record.agent_wallet rating job_record.payment_amount,
                       Event.reputationUpdated (updatedAgent agent_account twr tw now).wallet
                         (updatedAgent agent_account twr tw now).avg_rating] }

/-- One of the five callable operations. -/
inductive Op where
  | regAgent (signer : Pubkey) (metadata_uri : String)
  | updAgent (signer wallet_acc : Pubkey) (metadata_uri : String)
  | deactAgent (signer wallet_acc : Pubkey)
  | regJob (c : RegisterJobCtx) (idx : Nat)
  | subFeedback (client proof : Pubkey) (rating : Nat) (comment : Option String)

/-- Dispatch one operation against the chain. -/
def step (op : Op) (now : Int) (s : Chain) : Except TxError Chain :=
  match op with
  | .regAgent sg m => registerAgent sg m now s
  | .updAgent sg w m => updateAgent sg w m now s
  | .deactAgent sg w => deactivateAgent sg w now s
  | .regJob c idx => registerJob c idx now s
  | .subFeedback cl pf r cm => submitFeedback cl pf r cm now s

/-- The host commits the proposed state on success and discards it on
failure (atomic transaction semantics). -/
def okOr (r : Except TxError Chain) (d : Chain) : Chain :=
  match r with
  | .ok s => s
  | .error _ => d

/-! ### Basic store and arithmetic lemmas -/

lemma Store.get?_put_self {α : Type} (m : Store α) (k : Pubkey) (v : α) :
    (m.put k v).get? k = some v := by
  simp [Store.get?, Store.put, assocGet]

lemma Store.get?_put_ne {α : Type} (m : Store α) (k k' : Pubkey) (v : α) (h : k ≠ k') :
    (m.put k v).get? k' = m.get? k' := by
  simp [Store.get?, Store.put, assocGet, h]

lemma checkedAddU128_ok {a b c : Nat} (h : checkedAddU128 a b = .ok c) :
    c = a + b ∧ a + b < 2 ^ 128 := by
  unfold checkedAddU128 at h
  split at h
  · exact ⟨(Except.ok.inj h).symm, by assumption⟩
  · exact Except.noConfusion h

lemma checkedMulU128_ok {a b c : Nat} (h : checkedMulU128 a b = .ok c) :
    c = a * b ∧ a * b < 2 ^ 128 := by
  unfold checkedMulU128 at h
  split at h
  · exact ⟨(Except.ok.inj h).symm, by assumption⟩
  · exact Except.noConfusion h

/-! ### Success inversions for the agent-directory operations -/

lemma registerAgent_ok_inv {sg : Pubkey} {m : String} {now : Int} {s s' : Chain}
    (h : registerAgent sg m now s = .ok s') :
    s.agents.get? sg = none ∧
    s' = { s with
           agents := s.agents.put sg
             { wallet := sg, metadata_uri := m, created_at := now,
               active := true, auto_created := false, total_weighted_rating := 0,
               total_weight := 0, avg_rating := F32.lit0, last_update := now },
           events := s.events ++ [Event.agentRegistered sg m] } := by
  unfold registerAgent at h
  split at h
  · exact Except.noConfusion h
  · next hc => exact ⟨by simpa using hc, (Except.ok.inj h).symm⟩

lemma updateAgent_ok_inv {sg w : Pubkey} {m : String} {now : Int} {s s' : Chain}
    (h : updateAgent sg w m now s = .ok s') :
    ∃ aa, s.agents.get? sg = some aa ∧ aa.wallet = w ∧ w = sg ∧
      s' = { s with
             agents := s.agents.put sg { aa with metadata_uri := m, last_update := now },
             events := s.events ++ [Event.agentUpdated aa.wallet m] } := by
  unfold updateAgent at h
  split at h
  · exact Except.noConfusion h
  · next aa heq =>
    split at h
    · exact Except.noConfusion h
    · split at h
      · exact Except.noConfusion h
      · next hne hne2 =>
        exact ⟨aa, heq, not_not.mp hne, not_not.mp hne2, (Except.ok.inj h).symm⟩

lemma deactivateAgent_ok_inv {sg w : Pubkey} {now : Int} {s s' : Chain}
    (h : deactivateAgent sg w now s = .ok s') :
    ∃ aa, s.agents.get? sg = some aa ∧ aa.wallet = w ∧ w = sg ∧
      s' = { s with
             agents := s.agents.put sg { aa with active := false, last_update := now },
             events := s.events ++ [Event.agentDeactivated aa.wallet] } := by
  unfold deactivateAgent at h
  split at h
  · exact Except.noConfusion h
  · next aa heq =>
    split at h
    · exact Except.noConfusion h
    · split at h
      · exact Except.noConfusion h
      · next hne hne2 =>
        exact ⟨aa, heq, not_not.mp hne, not_not.mp hne2, (Except.ok.inj h).symm⟩

/-! ### The payment verifier -/

/-- Whether an error is the `InvalidTransferAmount` program error. -/
def TxError.isBadAmount : TxError → Bool
  | .program .invalidTransferAmount => true
  | _ => false

/-- Whether a result is the `InvalidTransferAmount` program error. -/
def isInvalidAmountError {α : Type} : Except TxError α → Bool
  | .error e => e.isBadAmount
  | .ok _ => false

/-- The byte-slice conversion after the shape check always yields 8 bytes, so
`verifyTransfer` is equivalent to the same check chain with the
`InvalidTransferAmount` branch removed. -/
lemma verifyTransfer_eq (ix : Instruction) (tp ct agt cw : Pubkey) :
    verifyTransfer ix tp ct agt cw =
      if ix.program_id ≠ tp then .error (.program .invalidTransferInstruction)
      else if ¬ (9 ≤ ix.data.length ∧ ix.data[0]? = some 3) then
        .error (.program .invalidTransferInstruction)
      else if ix.accounts.length < 3 then .error (.program .invalidTransferInstruction)
      else if ix.accounts[0]? ≠ some ct then .error (.program .transferSourceMismatch)
      else if ix.accounts[1]? ≠ some agt then .error (.program .transferDestinationMismatch)
      else if ix.accounts[2]? ≠ some cw then .error (.program .transferAuthorityMismatch)
      else .ok (leU64 ((ix.data.drop 1).take 8)) := by
  simp only [verifyTransfer]
  by_cases h1 : ix.program_id ≠ tp
  · simp [h1]
  · simp only [if_neg h1]
    by_cases h2 : 9 ≤ ix.data.length ∧ ix.data[0]? = some 3
    · have hlen : ((ix.data.drop 1).take 8).length = 8 := by
        have h9 := h2.1
        simp only [List.length_take, List.length_drop]
        omega
      simp only [if_neg (not_not.mpr h2)]
      rw [if_neg (not_not.mpr hlen)]
    · simp [h2]

lemma verifyTransfer_ok_amount {ix : Instruction} {tp ct agt cw : Pubkey} {amt : Nat}
    (h : verifyTransfer ix tp ct agt cw = .ok amt) :
    amt = leU64 ((ix.data.drop 1).take 8) := by
  rw [verifyTransfer_eq] at h
  split_ifs at h
  exact (Except.ok.inj h).symm

lemma verifyTransfer_not_bad_amount (ix : Instruction) (tp ct agt cw : Pubkey) :
    isInvalidAmountError (verifyTransfer ix tp ct agt cw) = false := by
  rw [verifyTransfer_eq]
  split_ifs <;> rfl

/-! ### Success inversions for `register_job` and `submit_feedback` -/

lemma registerJob_ok_inv {c : RegisterJobCtx} {idx : Nat} {now : Int} {s s' : Chain}
    (h : registerJob c idx now s = .ok s') :
    ∃ ix amt, s.agents.get? c.agent_wallet = none ∧
      s.jobs.get? c.payment_tx = none ∧
      c.client_token_account.owner = c.client_wallet ∧
      c.agent_token_account.owner = c.agent_wallet ∧
      c.client_token_account.mint = c.agent_token_account.mint ∧
      c.ixs[idx]? = some ix ∧
      verifyTransfer ix c.token_program c.client_token_account.address
        c.agent_token_account.address c.client_wallet = .ok amt ∧
      s' = { agents := s.agents.put c.agent_wallet (autoCreatedAgent c.agent_wallet now),
             jobs := s.jobs.put c.payment_tx (jobEntry c amt now),
             feedbacks := s.feedbacks,
             events := s.events ++ [Event.agentAutoCreated c.agent_wallet]
               ++ [Event.jobRegistered (derive "job" c.payment_tx) c.agent_wallet
                     c.client_wallet amt] } := by
  unfold registerJob at h
  split at h
  · exact Except.noConfusion h
  · next hagents =>
    have hanone : s.agents.get? c.agent_wallet = none := by simpa using hagents
    have hcond : (s.agents.get? c.agent_wallet).isNone = true := by
      rw [hanone]
      rfl
    split at h
    · exact Except.noConfusion h
    · next hjob =>
      split at h
      · exact Except.noConfusion h
      · next hcown =>
        split at h
        · exact Except.noConfusion h
        · next haown =>
          split at h
          · exact Except.noConfusion h
          · next hmint =>
            rcases hix : c.ixs[idx]? with _ | tix
            · simp only [hix] at h
              exact Except.noConfusion h
            · simp only [hix] at h
              rcases hvt : verifyTransfer tix c.token_program
                  c.client_token_account.address c.agent_token_account.address
                  c.client_wallet with e | amt
              · simp only [hvt] at h
                exact Except.noConfusion h
              · simp only [hvt] at h
                refine ⟨tix, amt, hanone, by simpa using hjob, not_not.mp hcown,
                  not_not.mp haown, not_not.mp hmint, rfl, hvt, ?_⟩
                rw [← (Except.ok.inj h)]

lemma submitFeedback_ok_inv {cl pf : Pubkey} {r : Nat} {cm : Option String}
    {now : Int} {s s' : Chain}
    (h : submitFeedback cl pf r cm now s = .ok s') :
    ∃ jr aa, s.jobs.get? pf = some jr ∧
      s.agents.get? jr.agent_wallet = some aa ∧
      s.feedbacks.get? jr.job_id = none ∧
      1 ≤ r ∧ r ≤ 5 ∧ jr.client_wallet = cl ∧ jr.payment_tx = pf ∧
      r * jr.payment_amount < 2 ^ 128 ∧
      aa.total_weighted_rating + r * jr.payment_amount < 2 ^ 128 ∧
      aa.total_weight + jr.payment_amount < 2 ^ 128 ∧
      s' = { agents := s.agents.put jr.agent_wallet
               (updatedAgent aa (aa.total_weighted_rating + r * jr.payment_amount)
                 (aa.total_weight + jr.payment_amount) now),
             jobs := s.jobs,
             feedbacks := s.feedbacks.put jr.job_id (feedbackEntry jr cl r cm now),
             events := s.events ++
               [Event.feedbackSubmitted jr.job_id cl jr.agent_wallet r jr.payment_amount,
                Event.reputationUpdated
                  (updatedAgent aa (aa.total_weighted_rating + r * jr.payment_amount)
                    (aa.total_weight + jr.payment_amount) now).wallet
                  (updatedAgent aa (aa.total_weighted_rating + r * jr.payment_amount)
                    (aa.total_weight + jr.payment_amount) now).avg_rating] } := by
  unfold submitFeedback at h
  rcases hjr : s.jobs.get? pf with _ | jr
  · simp only [hjr] at h
    exact Except.noConfusion h
  · simp only [hjr] at h
    rcases haa : s.agents.get? jr.agent_wallet with _ | aa
    · simp only [haa] at h
      exact Except.noConfusion h
    · simp only [haa] at h
      split at h
      · exact Except.noConfusion h
      · next hfb =>
        split at h
        · exact Except.noConfusion h
        · next hrate =>
          split at h
          · exact Except.noConfusion h
          · next hcl =>
            split at h
            · exact Except.noConfusion h
            · next hpf =>
              rcases hmul : checkedMulU128 r jr.payment_amount with e | w
              · simp only [hmul] at h
                exact Except.noConfusion h
              · simp only [hmul] at h
                rcases hadd1 : checkedAddU128 aa.total_weighted_rating w with e | twr
                · simp only [hadd1] at h
                  exact Except.noConfusion h
                · simp only [hadd1] at h
                  rcases hadd2 : checkedAddU128 aa.total_weight jr.payment_amount with e | tw
                  · simp only [hadd2] at h
                    exact Except.noConfusion h
                  · simp only [hadd2] at h
                    obtain ⟨hw, hwlt⟩ := checkedMulU128_ok hmul
                    obtain ⟨htwr, htwrlt⟩ := checkedAddU128_ok hadd1
                    obtain ⟨htw, htwlt⟩ := checkedAddU128_ok hadd2
                    subst hw
                    subst htwr
                    subst htw
                    have hr := not_not.mp hrate
                    exact ⟨jr, aa, rfl, haa, by simpa using hfb, hr.1, hr.2,
                      not_not.mp hcl, not_not.mp hpf, hwlt, htwrlt, htwlt,
                      (Except.ok.inj h).symm⟩

/-! ### Sequences of feedback submissions -/

/-- One `submit_feedback` invocation. -/
structure FeedbackCall where
  client : Pubkey
  proof : Pubkey
  rating : Nat
  comment : Option String
  now : Int
deriving DecidableEq, Repr

/-- Run a sequence of `submit_feedback` operations, stopping at the first
failure. -/
def runFeedbacks : List FeedbackCall → Chain → Except TxError Chain
  | [], s => .ok s
  | f :: rest, s =>
    match submitFeedback f.client f.proof f.rating f.comment f.now s with
    | .error e => .error e
    | .ok s1 => runFeedbacks rest s1

/-- The payment amount of the job a feedback call refers to. -/
def callAmount (s : Chain) (f : FeedbackCall) : Nat :=
  match s.jobs.get? f.proof with
  | some jr => jr.payment_amount
  | none => 0

/-- Whether a feedback call refers to a job of agent `a`. -/
def targetsAgent (s : Chain) (a : Pubkey) (f : FeedbackCall) : Bool :=
  match s.jobs.get? f.proof with
  | some jr => decide (jr.agent_wallet = a)
  | none => false

/-- Sum over the calls of rating times the referenced job's payment amount. -/
def sumWeighted (s : Chain) (L : List FeedbackCall) : Nat :=
  (L.map (fun f => f.rating * callAmount s f)).sum

/-- Sum over the calls of the referenced job's payment amount. -/
def sumWeight (s : Chain) (L : List FeedbackCall) : Nat :=
  (L.map (fun f => callAmount s f)).sum

lemma runFeedbacks_aggregate (a : Pubkey) :
    ∀ (L : List FeedbackCall) (s s' : Chain) (aa : AgentAccount),
      runFeedbacks L s = .ok s' →
      s.agents.get? a = some aa →
      (∀ f ∈ L, targetsAgent s a f = true) →
      ∃ aa', s'.agents.get? a = some aa' ∧
        aa'.total_weighted_rating = aa.total_weighted_rating + sumWeighted s L ∧
        aa'.total_weight = aa.total_weight + sumWeight s L ∧
        (L = [] → s' = s) ∧
        (L ≠ [] → aa'.avg_rating =
          F32.narrowDiv aa'.total_weighted_rating aa'.total_weight) ∧
        s'.jobs = s.jobs := by
  intro L
  induction L with
  | nil =>
    intro s s' aa hrun hag _
    have hs := Except.ok.inj hrun
    subst hs
    exact ⟨aa, hag, by simp [sumWeighted], by simp [sumWeight],
      fun _ => rfl, fun hne => absurd rfl hne, rfl⟩
  | cons f rest ih =>
    intro s s' aa hrun hag htgt
    rcases h1 : submitFeedback f.client f.proof f.rating f.comment f.now s with e | s1
    · simp only [runFeedbacks, h1] at hrun
      exact Except.noConfusion hrun
    · simp only [runFeedbacks, h1] at hrun
      obtain ⟨jr, aa0, hjr, haa0, hfb, h1le, h5le, hcl, hpf, hmlt, hlt1, hlt2, hs1⟩ :=
        submitFeedback_ok_inv h1
      have htf := htgt f (List.mem_cons_self f rest)
      have hwa : jr.agent_wallet = a := by
        unfold targetsAgent at htf
        rw [hjr] at htf
        simpa using htf
      have haa0a : aa0 = aa := by
        rw [hwa] at haa0
        rw [hag] at haa0
        exact (Option.some.inj haa0).symm
      subst haa0a
      have hjobs : s1.jobs = s.jobs := by rw [hs1]
      have hag1 : s1.agents.get? a =
          some (updatedAgent aa0 (aa0.total_weighted_rating + f.rating * jr.payment_amount)
            (aa0.total_weight + jr.payment_amount) f.now) := by
        rw [hs1]
        show (Store.put _ jr.agent_wallet _).get? a = _
        rw [hwa]
        exact Store.get?_put_self _ _ _
      have htgt1 : ∀ g ∈ rest, targetsAgent s1 a g = true := by
        intro g hg
        have h2 := htgt g (List.mem_cons_of_mem f hg)
        unfold targetsAgent at h2 ⊢
        rw [hjobs]
        exact h2
      obtain ⟨aa', hga', htwr', htw', hnil', havg', hjobs'⟩ :=
        ih s1 s' _ hrun hag1 htgt1
      have hca : callAmount s f = jr.payment_amount := by
        unfold callAmount
        rw [hjr]
      have hsumw : sumWeighted s1 rest = sumWeighted s rest := by
        unfold sumWeighted callAmount
        rw [hjobs]
      have hsum2 : sumWeight s1 rest = sumWeight s rest := by
        unfold sumWeight callAmount
        rw [hjobs]
      refine ⟨aa', hga', ?_, ?_, fun hh => absurd hh (List.cons_ne_nil f rest), ?_,
        by rw [hjobs', hjobs]⟩
      · rw [htwr', hsumw]
        show aa0.total_weighted_rating + f.rating * jr.payment_amount + sumWeighted s rest = _
        have : sumWeighted s (f :: rest) =
            f.rating * callAmount s f + sumWeighted s rest := by
          simp [sumWeighted]
        rw [this, hca]
        ring
      · rw [htw', hsum2]
        show aa0.total_weight + jr.payment_amount + sumWeight s rest = _
        have : sumWeight s (f :: rest) = callAmount s f + sumWeight s rest := by
          simp [sumWeight]
        rw [this, hca]
        ring
      · intro _
        rcases eq_or_ne rest [] with hr0 | hr0
        · have hss1 := hnil' hr0
          rw [hss1] at hga'
          rw [hag1] at hga'
          have haa' := Option.some.inj hga'
          rw [← haa']
          rfl
        · exact havg' hr0

/-! ### Flipping the `active` flag -/

/-- Flip the `active` flag of the entry for `w`. -/
def flipActive (w : Pubkey) (b : Bool) (e : Pubkey × AgentAccount) :
    Pubkey × AgentAccount :=
  if e.1 = w then (e.1, { e.2 with active := b }) else e

/-- The chain with agent `w`'s `active` flag set to `b` (other state
untouched). -/
def setActive (w : Pubkey) (b : Bool) (s : Chain) : Chain :=
  { s with agents := ⟨s.agents.entries.map (flipActive w b)⟩ }

lemma setActive_jobs (w : Pubkey) (b : Bool) (s : Chain) :
    (setActive w b s).jobs = s.jobs := rfl

lemma setActive_feedbacks (w : Pubkey) (b : Bool) (s : Chain) :
    (setActive w b s).feedbacks = s.feedbacks := rfl

lemma setActive_events (w : Pubkey) (b : Bool) (s : Chain) :
    (setActive w b s).events = s.events := rfl

lemma flipActive_fst (w : Pubkey) (b : Bool) (e : Pubkey × AgentAccount) :
    (flipActive w b e).1 = e.1 := by
  unfold flipActive
  split <;> rfl

lemma assocGet_map_flip (w : Pubkey) (b : Bool) (k : Pubkey) :
    ∀ l : List (Pubkey × AgentAccount),
      assocGet (l.map (flipActive w b)) k =
        (assocGet l k).map (fun aa => if k = w then { aa with active := b } else aa) := by
  intro l
  induction l with
  | nil => rfl
  | cons e rest ih =>
    simp only [List.map_cons, assocGet, flipActive_fst]
    by_cases hk : e.1 = k
    · rw [if_pos hk, if_pos hk]
      simp only [Option.map_some']
      unfold flipActive
      rw [hk]
      by_cases hw : k = w
      · simp only [if_pos hw]
      · simp only [if_neg hw]
    · rw [if_neg hk, if_neg hk]
      exact ih

lemma setActive_agents_get? (w : Pubkey) (b : Bool) (s : Chain) (k : Pubkey) :
    (setActive w b s).agents.get? k =
      (s.agents.get? k).map (fun aa => if k = w then { aa with active := b } else aa) :=
  assocGet_map_flip w b k s.agents.entries

lemma setActive_isNone (w : Pubkey) (b : Bool) (s : Chain) (k : Pubkey) :
    ((setActive w b s).agents.get? k).isNone = (s.agents.get? k).isNone := by
  rw [setActive_agents_get?]
  cases s.agents.get? k <;> rfl

lemma setActive_isSome (w : Pubkey) (b : Bool) (s : Chain) (k : Pubkey) :
    ((setActive w b s).agents.get? k).isSome = (s.agents.get? k).isSome := by
  rw [setActive_agents_get?]
  cases s.agents.get? k <;> rfl

lemma registerJob_setActive (c : RegisterJobCtx) (idx : Nat) (now : Int) (s : Chain)
    (w : Pubkey) (b : Bool) (aa : AgentAccount) (hw : s.agents.get? w = some aa) :
    registerJob c idx now (setActive w b s) =
      Except.map (setActive w b) (registerJob c idx now s) := by
  simp only [registerJob, setActive_jobs, setActive_isSome]
  split
  · rfl
  · split
    · rfl
    · split
      · rfl
      · split
        · rfl
        · split
          · rfl
          · rcases hix : c.ixs[idx]? with _ | tix
            · simp only [hix]
              rfl
            · simp only [hix]
              rcases hvt : verifyTransfer tix c.token_program
                  c.client_token_account.address c.agent_token_account.address
                  c.client_wallet with e | amt
              · simp only [hvt]
                rfl
              · simp only [hvt]
                show Except.ok _ = Except.ok _
                refine congrArg Except.ok ?_
                rw [setActive_isNone]
                cases hB : (s.agents.get? c.agent_wallet).isNone with
                | true =>
                  have hA : s.agents.get? c.agent_wallet = none := by
                    cases hAc : s.agents.get? c.agent_wallet
                    · rfl
                    · rw [hAc] at hB
                      exact Bool.noConfusion hB
                  have hne : c.agent_wallet ≠ w := by
                    intro hh
                    rw [hh, hw] at hA
                    exact Option.noConfusion hA
                  simp [setActive, Store.put, flipActive, hne]
                | false =>
                  simp [setActive]

lemma submitFeedback_setActive (cl pf : Pubkey) (r : Nat) (cm : Option String)
    (now : Int) (s : Chain) (w : Pubkey) (b : Bool) :
    submitFeedback cl pf r cm now (setActive w b s) =
      Except.map (setActive w b) (submitFeedback cl pf r cm now s) := by
  simp only [submitFeedback, setActive_jobs, setActive_feedbacks, setActive_events]
  rcases hjr : s.jobs.get? pf with _ | jr
  · simp only [hjr]
    rfl
  · simp only [hjr]
    rw [setActive_agents_get?]
    rcases haa : s.agents.get? jr.agent_wallet with _ | aa
    · simp only [haa, Option.map_none']
      rfl
    · simp only [haa, Option.map_some']
      by_cases hww : jr.agent_wallet = w
      · simp only [if_pos hww]
        split
        · rfl
        · split
          · rfl
          · split
            · rfl
            · split
              · rfl
              · rcases hcm2 : checkedMulU128 r jr.payment_amount with e | wv
                · simp only [hcm2]
                  rfl
                · simp only [hcm2]
                  rcases hca1 : checkedAddU128 aa.total_weighted_rating wv with e | twr
                  · simp only [hca1]
                    rfl
                  · simp only [hca1]
                    rcases hca2 : checkedAddU128 aa.total_weight jr.payment_amount
                        with e | tw
                    · simp only [hca2]
                      rfl
                    · simp only [hca2]
                      show Except.ok _ = Except.ok _
                      refine congrArg Except.ok ?_
                      simp [setActive, Store.put, flipActive, hww, updatedAgent]
      · simp only [if_neg hww]
        split
        · rfl
        · split
          · rfl
          · split
            · rfl
            · split
              · rfl
              · rcases hcm2 : checkedMulU128 r jr.payment_amount with e | wv
                · simp only [hcm2]
                  rfl
                · simp only [hcm2]
                  rcases hca1 : checkedAddU128 aa.total_weighted_rating wv with e | twr
                  · simp only [hca1]
                    rfl
                  · simp only [hca1]
                    rcases hca2 : checkedAddU128 aa.total_weight jr.payment_amount
                        with e | tw
                    · simp only [hca2]
                      rfl
                    · simp only [hca2]
                      show Except.ok _ = Except.ok _
                      refine congrArg Except.ok ?_
                      simp [setActive, Store.put, flipActive, hww]

/-! ### Concrete sample data (used to instantiate the theorems below) -/

def pkA : Pubkey := .wallet 1
def pkC : Pubkey := .wallet 2
def pkP : Pubkey := .wallet 3
def pkP2 : Pubkey := .wallet 4
def pkWrong : Pubkey := .wallet 77
def pkClientTok : Pubkey := .wallet 10
def pkAgentTok : Pubkey := .wallet 11
def pkMint : Pubkey := .wallet 12
def tokProg : Pubkey := .wallet 13

def ctok : TokenAccount := ⟨pkClientTok, pkMint, pkC⟩
def atok : TokenAccount := ⟨pkAgentTok, pkMint, pkA⟩

/-- A well-formed SPL transfer instruction for 1000000 units. -/
def goodIx : Instruction :=
  ⟨tokProg, [pkClientTok, pkAgentTok, pkC], [3, 64, 66, 15, 0, 0, 0, 0, 0]⟩

def ixBadProg : Instruction := { goodIx with program_id := .wallet 99 }
def ixWrongSrc : Instruction := { goodIx with accounts := [.wallet 98, pkAgentTok, pkC] }
def ixWrongDst : Instruction := { goodIx with accounts := [pkClientTok, .wallet 97, pkC] }
def ixWrongAuth : Instruction := { goodIx with accounts := [pkClientTok, pkAgentTok, .wallet 96] }

def ctx0 : RegisterJobCtx := ⟨pkA, pkC, pkP2, ctok, atok, tokProg, [goodIx]⟩

def aa0 : AgentAccount :=
  { wallet := pkA, metadata_uri := "m", created_at := 0, active := true,
    auto_created := false, total_weighted_rating := 0, total_weight := 0,
    avg_rating := F32.lit0, last_update := 0 }

def jr0 : JobRecord :=
  { job_id := derive "job" pkP, client_wallet := pkC, agent_wallet := pkA,
    payment_tx := pkP, payment_amount := 1000000, created_at := 0 }

def chainEmpty : Chain := ⟨⟨[]⟩, ⟨[]⟩, ⟨[]⟩, []⟩

/-- One registered agent and one registered job, no feedback yet. -/
def s0 : Chain := ⟨⟨[(pkA, aa0)]⟩, ⟨[(pkP, jr0)]⟩, ⟨[]⟩, []⟩

/-- Like `s0` but the agent record is absent. -/
def sNoAgent : Chain := ⟨⟨[]⟩, ⟨[(pkP, jr0)]⟩, ⟨[]⟩, []⟩

/-- Like `s0` but feedback for the job already exists. -/
def sWithFb : Chain :=
  ⟨⟨[(pkA, aa0)]⟩, ⟨[(pkP, jr0)]⟩,
   ⟨[(jr0.job_id, feedbackEntry jr0 pkC 5 none 1)]⟩, []⟩

/-! ### Claim theorems -/

/-- C1: In register_job's payment verification, the sibling instruction is
rejected with InvalidTransferInstruction unless its target program equals the
expected token program, its payload is at least 9 bytes with first byte 3, and
it declares at least 3 accounts; it is rejected with TransferSourceMismatch,
TransferDestinationMismatch, or TransferAuthorityMismatch unless declared
accounts #0, #1, #2 equal the client token account, the agent token account,
and the client identity; on success the recorded payment amount is the
little-endian u64 of payload bytes 1..9. -/
theorem trustless_C1_verify_transfer (ix : Instruction)
    (tp ct agt cw : Pubkey) (c : RegisterJobCtx) (idx : Nat) (now : Int) (s s' : Chain) :
    ((ix.program_id ≠ tp ∨ ¬ (9 ≤ ix.data.length ∧ ix.data[0]? = some 3) ∨
        ix.accounts.length < 3) →
      verifyTransfer ix tp ct agt cw = .error (.program .invalidTransferInstruction)) ∧
    (ix.program_id = tp → (9 ≤ ix.data.length ∧ ix.data[0]? = some 3) →
      3 ≤ ix.accounts.length →
      (ix.accounts[0]? ≠ some ct →
        verifyTransfer ix tp ct agt cw = .error (.program .transferSourceMismatch)) ∧
      (ix.accounts[0]? = some ct → ix.accounts[1]? ≠ some agt →
        verifyTransfer ix tp ct agt cw = .error (.program .transferDestinationMismatch)) ∧
      (ix.accounts[0]? = some ct → ix.accounts[1]? = some agt →
          ix.accounts[2]? ≠ some cw →
        verifyTransfer ix tp ct agt cw = .error (.program .transferAuthorityMismatch)) ∧
      (ix.accounts[0]? = some ct → ix.accounts[1]? = some agt →
          ix.accounts[2]? = some cw →
        verifyTransfer ix tp ct agt cw = .ok (leU64 ((ix.data.drop 1).take 8)))) ∧
    (registerJob c idx now s = .ok s' → ∀ tix, c.ixs[idx]? = some tix →
      ∃ jr, s'.jobs.get? c.payment_tx = some jr ∧
        verifyTransfer tix c.token_program c.client_token_account.address
          c.agent_token_account.address c.client_wallet = .ok jr.payment_amount ∧
        jr.payment_amount = leU64 ((tix.data.drop 1).take 8)) := by
  refine ⟨?_, ?_, ?_⟩
  · intro hbad
    rw [verifyTransfer_eq]
    rcases hbad with h | h | h
    · rw [if_pos h]
    · by_cases h1 : ix.program_id ≠ tp
      · rw [if_pos h1]
      · rw [if_neg h1, if_pos h]
    · by_cases h1 : ix.program_id ≠ tp
      · rw [if_pos h1]
      · rw [if_neg h1]
        by_cases h2 : 9 ≤ ix.data.length ∧ ix.data[0]? = some 3
        · rw [if_neg (not_not.mpr h2), if_pos h]
        · rw [if_pos h2]
  · intro h1 h2 h3
    have h1' : ¬ ix.program_id ≠ tp := not_not.mpr h1
    have hlt : ¬ ix.accounts.length < 3 := not_lt.mpr h3
    refine ⟨?_, ?_, ?_, ?_⟩
    · intro h4
      rw [verifyTransfer_eq, if_neg h1', if_neg (not_not.mpr h2), if_neg hlt, if_pos h4]
    · intro h4 h5
      rw [verifyTransfer_eq, if_neg h1', if_neg (not_not.mpr h2), if_neg hlt,
        if_neg (not_not.mpr h4), if_pos h5]
    · intro h4 h5 h6
      rw [verifyTransfer_eq, if_neg h1', if_neg (not_not.mpr h2), if_neg hlt,
        if_neg (not_not.mpr h4), if_neg (not_not.mpr h5), if_pos h6]
    · intro h4 h5 h6
      rw [verifyTransfer_eq, if_neg h1', if_neg (not_not.mpr h2), if_neg hlt,
        if_neg (not_not.mpr h4), if_neg (not_not.mpr h5), if_neg (not_not.mpr h6)]
  · intro hok tix htix
    obtain ⟨ix0, amt, han, hjn, hco, hao, hmint, hix0, hvt0, hs'⟩ :=
      registerJob_ok_inv hok
    have hixeq : ix0 = tix := by
      rw [hix0] at htix
      exact Option.some.inj htix
    subst hixeq
    refine ⟨jobEntry c amt now, ?_, hvt0, verifyTransfer_ok_amount hvt0⟩
    rw [hs']
    exact Store.get?_put_self _ _ _

theorem trustless_C1_witness :
    verifyTransfer ixBadProg tokProg pkClientTok pkAgentTok pkC =
      .error (.program .invalidTransferInstruction) ∧
    verifyTransfer ixWrongSrc tokProg pkClientTok pkAgentTok pkC =
      .error (.program .transferSourceMismatch) ∧
    verifyTransfer ixWrongDst tokProg pkClientTok pkAgentTok pkC =
      .error (.program .transferDestinationMismatch) ∧
    verifyTransfer ixWrongAuth tokProg pkClientTok pkAgentTok pkC =
      .error (.program .transferAuthorityMismatch) ∧
    verifyTransfer goodIx tokProg pkClientTok pkAgentTok pkC =
      .ok (leU64 ((goodIx.data.drop 1).take 8)) ∧
    (∃ jr, (okOr (registerJob ctx0 0 5 sNoAgent) sNoAgent).jobs.get? ctx0.payment_tx =
        some jr ∧
      verifyTransfer goodIx ctx0.token_program ctx0.client_token_account.address
        ctx0.agent_token_account.address ctx0.client_wallet = .ok jr.payment_amount ∧
      jr.payment_amount = leU64 ((goodIx.data.drop 1).take 8)) :=
  ⟨(trustless_C1_verify_transfer ixBadProg tokProg pkClientTok pkAgentTok pkC
      ctx0 0 0 s0 s0).1 (Or.inl (by decide)),
   ((trustless_C1_verify_transfer ixWrongSrc tokProg pkClientTok pkAgentTok pkC
      ctx0 0 0 s0 s0).2.1 (by decide) (by decide) (by decide)).1 (by decide),
   ((trustless_C1_verify_transfer ixWrongDst tokProg pkClientTok pkAgentTok pkC
      ctx0 0 0 s0 s0).2.1 (by decide) (by decide) (by decide)).2.1 (by decide) (by decide),
   ((trustless_C1_verify_transfer ixWrongAuth tokProg pkClientTok pkAgentTok pkC
      ctx0 0 0 s0 s0).2.1 (by decide) (by decide) (by decide)).2.2.1
      (by decide) (by decide) (by decide),
   ((trustless_C1_verify_transfer goodIx tokProg pkClientTok pkAgentTok pkC
      ctx0 0 0 s0 s0).2.1 (by decide) (by decide) (by decide)).2.2.2
      (by decide) (by decide) (by decide),
   (trustless_C1_verify_transfer goodIx tokProg pkClientTok pkAgentTok pkC
      ctx0 0 5 sNoAgent (okOr (registerJob ctx0 0 5 sNoAgent) sNoAgent)).2.2
      (by decide) goodIx (by decide)⟩

/-- C10: once the payload-shape check has passed the 8-byte conversion always
succeeds, so register_job never returns InvalidTransferAmount for any
input. -/
theorem trustless_C10_no_invalid_transfer_amount (c : RegisterJobCtx) (idx : Nat)
    (now : Int) (s : Chain) :
    isInvalidAmountError (registerJob c idx now s) = false := by
  unfold registerJob
  split
  · rfl
  · split
    · rfl
    · split
      · rfl
      · split
        · rfl
        · split
          · rfl
          · rcases hix : c.ixs[idx]? with _ | tix
            · simp only [hix]
              rfl
            · simp only [hix]
              rcases hvt : verifyTransfer tix c.token_program
                  c.client_token_account.address c.agent_token_account.address
                  c.client_wallet with e | amt
              · simp only [hvt]
                have hbad := verifyTransfer_not_bad_amount tix c.token_program
                  c.client_token_account.address c.agent_token_account.address
                  c.client_wallet
                rw [hvt] at hbad
                exact hbad
              · simp only [hvt]
                rfl

def ctxDup : RegisterJobCtx := { ctx0 with payment_tx := pkP }

def ctxBad : RegisterJobCtx := { ctx0 with ixs := [ixBadProg] }

lemma checkedAddU128_error {a b : Nat} {e : TxError} (h : checkedAddU128 a b = .error e) :
    e = .arithmeticOverflow := by
  unfold checkedAddU128 at h
  split at h
  · exact Except.noConfusion h
  · exact (Except.error.inj h).symm

lemma checkedMulU128_error {a b : Nat} {e : TxError} (h : checkedMulU128 a b = .error e) :
    e = .arithmeticOverflow := by
  unfold checkedMulU128 at h
  split at h
  · exact Except.noConfusion h
  · exact (Except.error.inj h).symm

/-- The only way `submit_feedback` returns `InvalidRating` is a rating outside
1..5. -/
lemma submitFeedback_invalidRating_inv {cl pf : Pubkey} {r : Nat} {cm : Option String}
    {now : Int} {s : Chain}
    (h : submitFeedback cl pf r cm now s = .error (.program .invalidRating)) :
    ¬ (1 ≤ r ∧ r ≤ 5) := by
  unfold submitFeedback at h
  rcases hjr : s.jobs.get? pf with _ | jr
  · simp only [hjr] at h
    exact TxError.noConfusion (Except.error.inj h)
  · simp only [hjr] at h
    rcases haa : s.agents.get? jr.agent_wallet with _ | aa
    · simp only [haa] at h
      exact TxError.noConfusion (Except.error.inj h)
    · simp only [haa] at h
      split at h
      · exact TxError.noConfusion (Except.error.inj h)
      · split at h
        · next hr => exact hr
        · split at h
          · exact ErrorCode.noConfusion (TxError.program.inj (Except.error.inj h))
          · split at h
            · exact ErrorCode.noConfusion (TxError.program.inj (Except.error.inj h))
            · rcases hcm2 : checkedMulU128 r jr.payment_amount with e | wv
              · simp only [hcm2] at h
                rw [checkedMulU128_error hcm2] at h
                exact TxError.noConfusion (Except.error.inj h)
              · simp only [hcm2] at h
                rcases hca1 : checkedAddU128 aa.total_weighted_rating wv with e | twr
                · simp only [hca1] at h
                  rw [checkedAddU128_error hca1] at h
                  exact TxError.noConfusion (Except.error.inj h)
                · simp only [hca1] at h
                  rcases hca2 : checkedAddU128 aa.total_weight jr.payment_amount
                      with e | tw
                  · simp only [hca2] at h
                    rw [checkedAddU128_error hca2] at h
                    exact TxError.noConfusion (Except.error.inj h)
                  · simp only [hca2] at h
                    exact Except.noConfusion h

/-- C3 counterexample: in the state reached right after a first successful
register_job (agent record present, job record present), a second
register_job with the same payment reference fails with the agent-account
SystemAccount owner error (AccountNotSystemOwned) — fired before the
job-record init — and not with the collision error the claim names. -/
theorem trustless_C3_counterexample :
    registerJob ctxDup 0 9 s0 = .error .accountNotSystemOwned ∧
    (Except.error TxError.accountNotSystemOwned : Except TxError Chain) ≠
      .error .accountAlreadyInUse ∧
    (s0.jobs.get? ctxDup.payment_tx).isSome = true ∧
    (s0.agents.get? ctxDup.agent_wallet).isSome = true := by
  decide

/-- C3 (amended): at most one JobRecord per payment reference and at most one
FeedbackRecord per job.  A second register_job with an occupied payment
reference always fails and never overwrites, but with the agent-account owner
error when the agent record exists (the usual case after a first successful
register_job) and with the address-collision error only when the agent record
is absent; a second submit_feedback for a job that already has feedback fails
with the collision error as claimed. -/
theorem trustless_C3_unique_records (s : Chain) (c : RegisterJobCtx) (idx : Nat)
    (now : Int) (cl pf : Pubkey) (r : Nat) (cm : Option String) :
    ((s.agents.get? c.agent_wallet).isSome = true →
      registerJob c idx now s = .error .accountNotSystemOwned) ∧
    (s.agents.get? c.agent_wallet = none → (s.jobs.get? c.payment_tx).isSome = true →
      registerJob c idx now s = .error .accountAlreadyInUse) ∧
    ((s.jobs.get? c.payment_tx).isSome = true →
      ∃ e, registerJob c idx now s = .error e ∧ okOr (registerJob c idx now s) s = s) ∧
    (∀ jr aa, s.jobs.get? pf = some jr → s.agents.get? jr.agent_wallet = some aa →
      (s.feedbacks.get? jr.job_id).isSome = true →
      submitFeedback cl pf r cm now s = .error .accountAlreadyInUse) := by
  refine ⟨?_, ?_, ?_, ?_⟩
  · intro ha
    unfold registerJob
    rw [if_pos ha]
  · intro ha hj
    unfold registerJob
    rw [if_neg (by simp [ha]), if_pos hj]
  · intro hj
    rcases Bool.eq_false_or_eq_true ((s.agents.get? c.agent_wallet).isSome)
        with hA | hA
    · have he : registerJob c idx now s = .error .accountNotSystemOwned := by
        unfold registerJob
        rw [if_pos hA]
      refine ⟨_, he, ?_⟩
      rw [he]
      rfl
    · have hn : s.agents.get? c.agent_wallet = none := by
        cases hx : s.agents.get? c.agent_wallet
        · rfl
        · rw [hx] at hA
          exact Bool.noConfusion hA
      have he : registerJob c idx now s = .error .accountAlreadyInUse := by
        unfold registerJob
        rw [if_neg (by simp [hn]), if_pos hj]
      refine ⟨_, he, ?_⟩
      rw [he]
      rfl
  · intro jr aa hjr haa hfb
    unfold submitFeedback
    simp only [hjr]
    simp only [haa]
    rw [if_pos hfb]

theorem trustless_C3_witness :
    registerJob ctxDup 0 9 s0 = .error .accountNotSystemOwned ∧
    registerJob ctxDup 0 9 sNoAgent = .error .accountAlreadyInUse ∧
    (∃ e, registerJob ctxDup 0 9 s0 = .error e ∧
      okOr (registerJob ctxDup 0 9 s0) s0 = s0) ∧
    submitFeedback pkC pkP 4 none 9 sWithFb = .error .accountAlreadyInUse :=
  ⟨(trustless_C3_unique_records s0 ctxDup 0 9 pkC pkP 4 none).1 (by decide),
   (trustless_C3_unique_records sNoAgent ctxDup 0 9 pkC pkP 4 none).2.1
     (by decide) (by decide),
   (trustless_C3_unique_records s0 ctxDup 0 9 pkC pkP 4 none).2.2.1 (by decide),
   (trustless_C3_unique_records sWithFb ctxDup 0 9 pkC pkP 4 none).2.2.2 jr0 aa0
     (by decide) (by decide) (by decide)⟩

/-- C4: operations are atomic on failure (an error result commits no state
change); register_job whose sibling instruction targets a different program
always fails; submit_feedback by a client other than the job's recorded client
fails with UnauthorizedClient. -/
theorem trustless_C4_atomic_failure (c : RegisterJobCtx) (idx : Nat) (now : Int)
    (s : Chain) (cl pf : Pubkey) (r : Nat) (cm : Option String) :
    (∀ e, registerJob c idx now s = .error e → okOr (registerJob c idx now s) s = s) ∧
    (∀ e, submitFeedback cl pf r cm now s = .error e →
      okOr (submitFeedback cl pf r cm now s) s = s) ∧
    (∀ tix, c.ixs[idx]? = some tix → tix.program_id ≠ c.token_program →
      ∃ e, registerJob c idx now s = .error e) ∧
    (∀ jr aa, s.jobs.get? pf = some jr → s.agents.get? jr.agent_wallet = some aa →
      s.feedbacks.get? jr.job_id = none → 1 ≤ r → r ≤ 5 → jr.client_wallet ≠ cl →
      submitFeedback cl pf r cm now s = .error (.program .unauthorizedClient)) := by
  refine ⟨?_, ?_, ?_, ?_⟩
  · intro e he
    rw [he]
    rfl
  · intro e he
    rw [he]
    rfl
  · intro tix htix hprog
    unfold registerJob
    split
    · exact ⟨_, rfl⟩
    · split
      · exact ⟨_, rfl⟩
      · split
        · exact ⟨_, rfl⟩
        · split
          · exact ⟨_, rfl⟩
          · split
            · exact ⟨_, rfl⟩
            · simp only [htix]
              rw [verifyTransfer_eq, if_pos hprog]
              exact ⟨_, rfl⟩
  · intro jr aa hjr haa hfb h1 h5 hne
    unfold submitFeedback
    simp only [hjr]
    simp only [haa]
    rw [if_neg (by simp [hfb]), if_neg (not_not.mpr ⟨h1, h5⟩), if_pos hne]

theorem trustless_C4_witness :
    okOr (registerJob ctxDup 0 9 s0) s0 = s0 ∧
    okOr (submitFeedback pkC pkP 0 none 9 s0) s0 = s0 ∧
    (∃ e, registerJob ctxBad 0 9 s0 = .error e) ∧
    submitFeedback pkWrong pkP 5 none 9 s0 = .error (.program .unauthorizedClient) :=
  ⟨(trustless_C4_atomic_failure ctxDup 0 9 s0 pkC pkP 0 none).1
      .accountNotSystemOwned (by decide),
   (trustless_C4_atomic_failure ctxDup 0 9 s0 pkC pkP 0 none).2.1
      (.program .invalidRating) (by decide),
   (trustless_C4_atomic_failure ctxBad 0 9 s0 pkC pkP 0 none).2.2.1
      ixBadProg (by decide) (by decide),
   (trustless_C4_atomic_failure ctxBad 0 9 s0 pkWrong pkP 5 none).2.2.2
      jr0 aa0 (by decide) (by decide) (by decide) (by decide) (by decide) (by decide)⟩

/-- C5 counterexample: at rating 0 (outside 1..5) against a state with no job
record at the reference, submit_feedback fails with AccountNotInitialized, not
InvalidRating — refuting the claim that a rating outside the range always
yields InvalidRating regardless of the current state. -/
theorem trustless_C5_counterexample :
    submitFeedback pkC pkP 0 none 0 chainEmpty = .error .accountNotInitialized ∧
    (Except.error TxError.accountNotInitialized : Except TxError Chain) ≠
      .error (.program .invalidRating) ∧
    ¬ (1 ≤ 0 ∧ 0 ≤ 5) := by
  decide

/-- C5 (amended): provided the account validation passes (the job record
exists, its agent record exists, and no feedback record exists yet for the
job), submit_feedback fails with InvalidRating iff the rating is outside
1..5; and InvalidRating is never returned for an in-range rating under any
state. -/
theorem trustless_C5_rating_range (cl pf : Pubkey) (r : Nat) (cm : Option String)
    (now : Int) (s : Chain) (jr : JobRecord) (aa : AgentAccount)
    (hjr : s.jobs.get? pf = some jr) (haa : s.agents.get? jr.agent_wallet = some aa)
    (hfb : s.feedbacks.get? jr.job_id = none) :
    submitFeedback cl pf r cm now s = .error (.program .invalidRating) ↔
      ¬ (1 ≤ r ∧ r ≤ 5) := by
  constructor
  · exact fun hcon => submitFeedback_invalidRating_inv hcon
  · intro hr
    unfold submitFeedback
    simp only [hjr]
    simp only [haa]
    rw [if_neg (by simp [hfb]), if_pos hr]

theorem trustless_C5_witness :
    (submitFeedback pkC pkP 0 none 9 s0 = .error (.program .invalidRating) ↔
      ¬ (1 ≤ 0 ∧ 0 ≤ 5)) ∧
    (submitFeedback pkC pkP 6 none 9 s0 = .error (.program .invalidRating) ↔
      ¬ (1 ≤ 6 ∧ 6 ≤ 5)) :=
  ⟨trustless_C5_rating_range pkC pkP 0 none 9 s0 jr0 aa0
      (by decide) (by decide) (by decide),
   trustless_C5_rating_range pkC pkP 6 none 9 s0 jr0 aa0
      (by decide) (by decide) (by decide)⟩

def jr2 : JobRecord :=
  { job_id := derive "job" pkP2, client_wallet := pkC, agent_wallet := pkA,
    payment_tx := pkP2, payment_amount := 500000, created_at := 0 }

/-- Agent with two registered jobs, no feedback yet. -/
def s2 : Chain := ⟨⟨[(pkA, aa0)]⟩, ⟨[(pkP, jr0), (pkP2, jr2)]⟩, ⟨[]⟩, []⟩

def fb1 : FeedbackCall := ⟨pkC, pkP, 5, none, 7⟩

def fb2 : FeedbackCall := ⟨pkC, pkP2, 1, none, 8⟩

/-- C2: after a sequence of successful submit_feedback operations against one
agent starting from zeroed aggregates, total_weighted_rating equals
Σ(rating_i * amount_i) and total_weight equals Σ(amount_i) exactly (the
checked 128-bit arithmetic never wrapped on a successful path), and avg_rating
is the 64-bit-precision division of the two totals narrowed to 32 bits
(symbolically, `F32.narrowDiv`). -/
theorem trustless_C2_weighted_aggregate (s s' : Chain) (a : Pubkey)
    (L : List FeedbackCall) (aa : AgentAccount)
    (hrun : runFeedbacks L s = .ok s')
    (hag : s.agents.get? a = some aa)
    (hz1 : aa.total_weighted_rating = 0) (hz2 : aa.total_weight = 0)
    (hne : L ≠ [])
    (htgt : ∀ f ∈ L, targetsAgent s a f = true) :
    ∃ aa', s'.agents.get? a = some aa' ∧
      aa'.total_weighted_rating = sumWeighted s L ∧
      aa'.total_weight = sumWeight s L ∧
      aa'.avg_rating = F32.narrowDiv (sumWeighted s L) (sumWeight s L) := by
  obtain ⟨aa', h1, h2, h3, _, h5, _⟩ :=
    runFeedbacks_aggregate a L s s' aa hrun hag htgt
  rw [hz1, Nat.zero_add] at h2
  rw [hz2, Nat.zero_add] at h3
  refine ⟨aa', h1, h2, h3, ?_⟩
  rw [← h2, ← h3]
  exact h5 hne

theorem trustless_C2_witness :
    ∃ aa', (okOr (runFeedbacks [fb1, fb2] s2) s2).agents.get? pkA = some aa' ∧
      aa'.total_weighted_rating = sumWeighted s2 [fb1, fb2] ∧
      aa'.total_weight = sumWeight s2 [fb1, fb2] ∧
      aa'.avg_rating = F32.narrowDiv (sumWeighted s2 [fb1, fb2])
        (sumWeight s2 [fb1, fb2]) ∧
      sumWeighted s2 [fb1, fb2] = 5500000 ∧ sumWeight s2 [fb1, fb2] = 1500000 := by
  obtain ⟨aa', h1, h2, h3, h4⟩ :=
    trustless_C2_weighted_aggregate s2 (okOr (runFeedbacks [fb1, fb2] s2) s2) pkA
      [fb1, fb2] aa0 (by decide) (by decide) (by decide) (by decide) (by decide)
      (by decide)
  exact ⟨aa', h1, h2, h3, h4, by decide, by decide⟩

/-- C6 (code bug): the claim's exists-branch — register_job treating an
existing agent record as existing, skipping initialization and leaving every
field unchanged — matches the source's own comment ("can be either existing
or newly created"), but the SystemAccount wrapper on agent_account rejects a
program-owned (existing) record before the handler runs.  At the failing
input (register_job against a state whose agent record exists) the operation
aborts with AccountNotSystemOwned and registers no job; the absent-agent path
still auto-creates the zeroed record and emits AgentAutoCreated as claimed. -/
theorem trustless_C6_agent_exists_rejected :
    (s0.agents.get? ctx0.agent_wallet).isSome = true ∧
    registerJob ctx0 0 5 s0 = .error .accountNotSystemOwned ∧
    okOr (registerJob ctx0 0 5 s0) s0 = s0 ∧
    (okOr (registerJob ctx0 0 5 sNoAgent) sNoAgent).agents.get? ctx0.agent_wallet =
      some (autoCreatedAgent ctx0.agent_wallet 5) ∧
    Event.agentAutoCreated ctx0.agent_wallet ∈
      (okOr (registerJob ctx0 0 5 sNoAgent) sNoAgent).events := by
  decide

/-- C7: flipping an existing agent record's active flag commutes with
register_job and submit_feedback — neither operation reads the flag, so a
deactivated agent is treated exactly like an active one. -/
theorem trustless_C7_active_flag_irrelevant (s : Chain) (w : Pubkey)
    (aa : AgentAccount) (b : Bool) (c : RegisterJobCtx) (idx : Nat)
    (cl pf : Pubkey) (r : Nat) (cm : Option String) (now : Int)
    (hw : s.agents.get? w = some aa) :
    registerJob c idx now (setActive w b s) =
      Except.map (setActive w b) (registerJob c idx now s) ∧
    submitFeedback cl pf r cm now (setActive w b s) =
      Except.map (setActive w b) (submitFeedback cl pf r cm now s) :=
  ⟨registerJob_setActive c idx now s w b aa hw,
   submitFeedback_setActive cl pf r cm now s w b⟩

def pkB : Pubkey := .wallet 5

def btok : TokenAccount := ⟨pkAgentTok, pkMint, pkB⟩

/-- Register-job context for a second agent `pkB` with no record yet. -/
def ctxB : RegisterJobCtx := ⟨pkB, pkC, pkP2, ctok, btok, tokProg, [goodIx]⟩

theorem trustless_C7_witness :
    registerJob ctxB 0 7 (setActive pkA false s0) =
      Except.map (setActive pkA false) (registerJob ctxB 0 7 s0) ∧
    submitFeedback pkC pkP 5 none 7 (setActive pkA false s0) =
      Except.map (setActive pkA false) (submitFeedback pkC pkP 5 none 7 s0) :=
  trustless_C7_active_flag_irrelevant s0 pkA aa0 false ctxB 0 pkC pkP 5 none 7
    (by decide)

/-- C8: across all five operations, a surviving agent record's total_weight
and total_weighted_rating never decrease on success. -/
theorem trustless_C8_monotone_totals (op : Op) (now : Int) (s s' : Chain)
    (w : Pubkey) (aa : AgentAccount)
    (hok : step op now s = .ok s') (hw : s.agents.get? w = some aa) :
    ∃ aa', s'.agents.get? w = some aa' ∧
      aa.total_weighted_rating ≤ aa'.total_weighted_rating ∧
      aa.total_weight ≤ aa'.total_weight := by
  cases op with
  | regAgent sg m =>
    obtain ⟨hnone, hs'⟩ := registerAgent_ok_inv hok
    subst hs'
    have hne : sg ≠ w := by
      intro hh
      rw [hh, hw] at hnone
      exact Option.noConfusion hnone
    refine ⟨aa, ?_, le_refl _, le_refl _⟩
    show (s.agents.put sg _).get? w = some aa
    rw [Store.get?_put_ne _ _ _ _ hne]
    exact hw
  | updAgent sg wc m =>
    obtain ⟨aaold, hsome, hwall, hwsg, hs'⟩ := updateAgent_ok_inv hok
    subst hs'
    by_cases hsw : sg = w
    · subst hsw
      have haao : aaold = aa := by
        rw [hw] at hsome
        exact (Option.some.inj hsome).symm
      subst haao
      exact ⟨_, Store.get?_put_self _ _ _, le_refl _, le_refl _⟩
    · refine ⟨aa, ?_, le_refl _, le_refl _⟩
      show (s.agents.put sg _).get? w = some aa
      rw [Store.get?_put_ne _ _ _ _ hsw]
      exact hw
  | deactAgent sg wc =>
    obtain ⟨aaold, hsome, hwall, hwsg, hs'⟩ := deactivateAgent_ok_inv hok
    subst hs'
    by_cases hsw : sg = w
    · subst hsw
      have haao : aaold = aa := by
        rw [hw] at hsome
        exact (Option.some.inj hsome).symm
      subst haao
      exact ⟨_, Store.get?_put_self _ _ _, le_refl _, le_refl _⟩
    · refine ⟨aa, ?_, le_refl _, le_refl _⟩
      show (s.agents.put sg _).get? w = some aa
      rw [Store.get?_put_ne _ _ _ _ hsw]
      exact hw
  | regJob c idx =>
    obtain ⟨ix, amt, hanone, hjn, hco, hao, hmint, hix, hvt, hs'⟩ :=
      registerJob_ok_inv hok
    subst hs'
    have hne : c.agent_wallet ≠ w := by
      intro hh
      rw [hh, hw] at hanone
      exact Option.noConfusion hanone
    refine ⟨aa, ?_, le_refl _, le_refl _⟩
    show (s.agents.put c.agent_wallet (autoCreatedAgent c.agent_wallet now)).get? w =
      some aa
    rw [Store.get?_put_ne _ _ _ _ hne]
    exact hw
  | subFeedback cl pf r cm =>
    obtain ⟨jr, aaj, hjr, haa, hfb, h1, h5, hcl, hpf, hm, hl1, hl2, hs'⟩ :=
      submitFeedback_ok_inv hok
    subst hs'
    by_cases hsw : jr.agent_wallet = w
    · have haao : aaj = aa := by
        rw [hsw, hw] at haa
        exact (Option.some.inj haa).symm
      subst haao
      refine ⟨updatedAgent aaj (aaj.total_weighted_rating + r * jr.payment_amount)
        (aaj.total_weight + jr.payment_amount) now, ?_, Nat.le_add_right _ _,
        Nat.le_add_right _ _⟩
      show (s.agents.put jr.agent_wallet _).get? w = _
      rw [hsw]
      exact Store.get?_put_self _ _ _
    · refine ⟨aa, ?_, le_refl _, le_refl _⟩
      show (s.agents.put jr.agent_wallet _).get? w = some aa
      rw [Store.get?_put_ne _ _ _ _ hsw]
      exact hw

theorem trustless_C8_witness :
    ∃ aa', (okOr (step (.subFeedback pkC pkP 5 none) 7 s0) s0).agents.get? pkA =
        some aa' ∧
      aa0.total_weighted_rating ≤ aa'.total_weighted_rating ∧
      aa0.total_weight ≤ aa'.total_weight :=
  trustless_C8_monotone_totals (.subFeedback pkC pkP 5 none) 7 s0
    (okOr (step (.subFeedback pkC pkP 5 none) 7 s0) s0) pkA aa0
    (by decide) (by decide)

/-- C9: a successful update_agent changes only metadata_uri and last_update of
the caller's agent record; wallet, created_at, active, auto_created,
total_weighted_rating, total_weight and avg_rating are unchanged, and no other
agent, job or feedback record is modified. -/
theorem trustless_C9_update_agent_frame (sg wc : Pubkey) (m : String) (now : Int)
    (s s' : Chain) (hok : updateAgent sg wc m now s = .ok s') :
    ∃ aa, s.agents.get? sg = some aa ∧
      s'.agents.get? sg = some { aa with metadata_uri := m, last_update := now } ∧
      ({ aa with metadata_uri := m, last_update := now } : AgentAccount).wallet =
        aa.wallet ∧
      ({ aa with metadata_uri := m, last_update := now } : AgentAccount).created_at =
        aa.created_at ∧
      ({ aa with metadata_uri := m, last_update := now } : AgentAccount).active =
        aa.active ∧
      ({ aa with metadata_uri := m, last_update := now } : AgentAccount).auto_created =
        aa.auto_created ∧
      ({ aa with metadata_uri := m, last_update := now } : AgentAccount).total_weighted_rating = aa.total_weighted_rating ∧
      ({ aa with metadata_uri := m, last_update := now } : AgentAccount).total_weight =
        aa.total_weight ∧
      ({ aa with metadata_uri := m, last_update := now } : AgentAccount).avg_rating =
        aa.avg_rating ∧
      (∀ k, k ≠ sg → s'.agents.get? k = s.agents.get? k) ∧
      s'.jobs = s.jobs ∧ s'.feedbacks = s.feedbacks := by
  obtain ⟨aa, hsome, hwall, hwsg, hs'⟩ := updateAgent_ok_inv hok
  subst hs'
  refine ⟨aa, hsome, Store.get?_put_self _ _ _, rfl, rfl, rfl, rfl, rfl, rfl, rfl,
    ?_, rfl, rfl⟩
  intro k hk
  exact Store.get?_put_ne _ _ _ _ (Ne.symm hk)

theorem trustless_C9_witness :
    ∃ aa, s0.agents.get? pkA = some aa ∧
      (okOr (updateAgent pkA pkA "n" 9 s0) s0).agents.get? pkA =
        some { aa with metadata_uri := "n", last_update := 9 } ∧
      ({ aa with metadata_uri := "n", last_update := 9 } : AgentAccount).wallet =
        aa.wallet ∧
      ({ aa with metadata_uri := "n", last_update := 9 } : AgentAccount).created_at =
        aa.created_at ∧
      ({ aa with metadata_uri := "n", last_update := 9 } : AgentAccount).active =
        aa.active ∧
      ({ aa with metadata_uri := "n", last_update := 9 } : AgentAccount).auto_created =
        aa.auto_created ∧
      ({ aa with metadata_uri := "n", last_update := 9 } : AgentAccount).total_weighted_rating = aa.total_weighted_rating ∧
      ({ aa with metadata_uri := "n", last_update := 9 } : AgentAccount).total_weight =
        aa.total_weight ∧
      ({ aa with metadata_uri := "n", last_update := 9 } : AgentAccount).avg_rating =
        aa.avg_rating ∧
      (∀ k, k ≠ pkA →
        (okOr (updateAgent pkA pkA "n" 9 s0) s0).agents.get? k = s0.agents.get? k) ∧
      (okOr (updateAgent pkA pkA "n" 9 s0) s0).jobs = s0.jobs ∧
      (okOr (updateAgent pkA pkA "n" 9 s0) s0).feedbacks = s0.feedbacks :=
  trustless_C9_update_agent_frame pkA pkA "n" 9 s0
    (okOr (updateAgent pkA pkA "n" 9 s0) s0) (by decide)

end Trustless
